import Mathlib

/-!
Shallow embedding of the simulation core of the Snake game
(`src/src/main.rs`), together with theorems checking the
natural-language specification against it.

The embedding models the Bevy ECS state as an explicit record
(`GameState`): the ordered segment list (index 0 is the head entity,
which carries the `SnakeHead` component and the current direction),
the `LastTailPosition` resource, the live food positions, and the
per-tick `GrowthEvent` / `GameOverEvent` queues as counters.
Fallible operations (the `.unwrap()` calls in `snake_movement` and
`snake_growth`) return `Option`.  The `rand::random::<f32>()` draws of
`food_spawner` are modelled as rationals in `[0, 1)` consumed from an
explicit list, and the Rust `as i32` cast as truncation toward zero.
-/

namespace Snake

attribute [local semireducible] Rat.mul

/-- Embeds `struct Position { x: i32, y: i32 }` (grid coordinate, exact equality). -/
structure Position where
  x : Int
  y : Int
deriving DecidableEq, Repr

/-- Embeds `enum Direction { Left, Right, Up, Down }`. -/
inductive Direction where
  | left
  | right
  | up
  | down
deriving DecidableEq, Repr

/-- Embeds `Direction::opposite`. -/
def Direction.opposite : Direction → Direction
  | .left => .right
  | .right => .left
  | .up => .down
  | .down => .up

/-- Embeds `ARENA_WIDTH: u32 = 10`. -/
def ARENA_WIDTH : Int := 10

/-- Embeds `ARENA_HEIGHT: u32 = 10`. -/
def ARENA_HEIGHT : Int := 10

/-- The head-position mutation in `snake_movement`: offset one grid unit
in the current direction (`Left: x-1, Right: x+1, Up: y+1, Down: y-1`). -/
def movePos (d : Direction) (p : Position) : Position :=
  match d with
  | .left => { p with x := p.x - 1 }
  | .right => { p with x := p.x + 1 }
  | .up => { p with y := p.y + 1 }
  | .down => { p with y := p.y - 1 }

/-- The bounds test of `snake_movement`:
`head_pos.x < 0 || head_pos.y < 0 || head_pos.x as u32 >= ARENA_WIDTH ||
head_pos.y as u32 >= ARENA_HEIGHT` (for a non-negative `i32` the `as u32`
cast is the identity; a negative one is already caught by the sign test). -/
def outOfBounds (p : Position) : Bool :=
  decide (p.x < 0) || decide (p.y < 0) ||
    decide (ARENA_WIDTH ≤ p.x) || decide (ARENA_HEIGHT ≤ p.y)

/-- The ECS state the simulation systems read and write: the
`SnakeSegments` resource (as the positions of its entities, index 0 the
head), the head's `SnakeHead { direction }` component, the
`LastTailPosition` resource, the positions of live `Food` entities, and
the pending `GrowthEvent` / `GameOverEvent` queues as counters. -/
structure GameState where
  segments : List Position
  direction : Direction
  lastTail : Option Position
  foods : List Position
  growthEvents : Nat
  gameOverEvents : Nat
deriving DecidableEq, Repr

/-- Positions returned by the `Query<&Position, With<SnakeHead>>` used by
`food_spawner` and `snake_eating`: exactly the head entity, segment 0. -/
def headPositions (s : GameState) : List Position :=
  s.segments.take 1

/-- Embeds `spawn_snake`: the segment list becomes a head entity at `(3, 3)`
facing `Up` plus one body segment at `(3, 3)`. -/
def spawn_snake (s : GameState) : GameState :=
  { s with
    segments := [⟨3, 3⟩, ⟨3, 3⟩]
    direction := .up }

/-- The state after the `Startup` schedule: `spawn_snake` applied to the
default resources (`SnakeSegments(vec![])`, `LastTailPosition(None)`, no
food entities, empty event queues). -/
def initialState : GameState :=
  spawn_snake
    { segments := []
      direction := .up
      lastTail := none
      foods := []
      growthEvents := 0
      gameOverEvents := 0 }

/-- Embeds `snake_movement_input`: the keyboard supplies an arrow direction (or
none, in which case `dir` is the current direction); the head direction
is updated unless `dir == head.direction.opposite()`. -/
def snake_movement_input (s : GameState) (key : Option Direction) : GameState :=
  let dir := key.getD s.direction
  if dir = s.direction.opposite then s else { s with direction := dir }

/-- Embeds `snake_movement`: snapshot all segment positions, mutate the head one
unit in its direction, send a `GameOverEvent` if the new head is out of
bounds and another if it hits the pre-move snapshot, shift every segment
`i ≥ 1` to `segment_positions[i-1]`, and record the snapshot's last
element as `LastTailPosition`.  Returns `none` when the
`segment_positions.last().unwrap()` would panic (empty segment list). -/
def snake_movement (s : GameState) : Option GameState :=
  match s.segments with
  | [] => none
  | h :: t =>
    let snapshot := h :: t
    let newHead := movePos s.direction h
    let boundsHit := outOfBounds newHead
    let selfHit := decide (newHead ∈ snapshot)
    some
      { s with
        segments := newHead :: snapshot.dropLast
        gameOverEvents :=
          s.gameOverEvents + (if boundsHit then 1 else 0) + (if selfHit then 1 else 0)
        lastTail := some (snapshot.getLast (List.cons_ne_nil h t)) }

/-- Embeds `snake_eating`: for the head position, every live food entity at the
same position is despawned and sends one `GrowthEvent`. -/
def snake_eating (s : GameState) : GameState :=
  match headPositions s with
  | [] => s
  | hp :: _ =>
    { s with
      foods := s.foods.filter (fun fp => decide (fp ≠ hp))
      growthEvents := s.growthEvents + s.foods.countP (fun fp => decide (fp = hp)) }

/-- Embeds `snake_growth`: `if !growth_reader.is_empty()` push ONE new segment at
`last_tail_position.0.unwrap()`; the event queue is drained this tick.
Returns `none` when the `unwrap` would panic (`LastTailPosition` is
`None` while a growth event is pending). -/
def snake_growth (s : GameState) : Option GameState :=
  if s.growthEvents ≠ 0 then
    match s.lastTail with
    | none => none
    | some p => some { s with segments := s.segments ++ [p], growthEvents := 0 }
  else
    some { s with growthEvents := 0 }

/-- Embeds `game_over`: `if !reader.is_empty()` despawn every `Food` and every
`SnakeSegment` entity (head included) and run `spawn_snake`; the event
queue is drained this tick. -/
def game_over (s : GameState) : GameState :=
  if s.gameOverEvents ≠ 0 then
    spawn_snake { s with foods := [], gameOverEvents := 0 }
  else
    { s with gameOverEvents := 0 }

/-- Rust `f as i32` for an `f32` value `f`, on the rational model:
truncation toward zero. -/
def f32_as_i32 (q : ℚ) : Int :=
  if 0 ≤ q then Int.floor q else -Int.floor (-q)

/-- The rejection-sampling loop of `food_spawner` over an explicit list of
random draws (each `rand::random::<f32>()` pair modelled as rationals):
scale each coordinate by the arena size, truncate, reject the draw if it
equals some head position, otherwise accept it.  Returns `none` when the
draw list is exhausted (the Rust loop would keep drawing). -/
def food_spawner_loop (draws : List (ℚ × ℚ)) (heads : List Position) : Option Position :=
  match draws with
  | [] => none
  | (rx, ry) :: rest =>
    let x := f32_as_i32 (rx * (ARENA_WIDTH : ℚ))
    let y := f32_as_i32 (ry * (ARENA_HEIGHT : ℚ))
    if heads.all (fun hp => !(decide (hp.x = x) && decide (hp.y = y))) then
      some ⟨x, y⟩
    else
      food_spawner_loop rest heads

/-- Embeds `food_spawner`: run the rejection loop against the head positions and
spawn a `Food` entity at the accepted position (if the loop found one
within the supplied draws). -/
def food_spawner (s : GameState) (draws : List (ℚ × ℚ)) : GameState :=
  match food_spawner_loop draws (headPositions s) with
  | some p => { s with foods := s.foods ++ [p] }
  | none => s

/-- The input to one `FixedUpdate` tick: the pressed arrow key (if any),
whether the 150 ms movement timer fired, and—when the 1 s food timer
fired—the random draws available to `food_spawner`. -/
structure TickInput where
  key : Option Direction
  moveTick : Bool
  foodDraws : Option (List (ℚ × ℚ))
deriving Repr

/-- One `FixedUpdate` tick in the pipeline order
`snake_movement_input → snake_movement → snake_eating → snake_growth →
food_spawner → game_over` (one topological order of the declared system
ordering; `game_over` last).  `none` propagates an `unwrap` panic. -/
def tick (s : GameState) (inp : TickInput) : Option GameState :=
  let s1 := snake_movement_input s inp.key
  let moved : Option GameState :=
    if inp.moveTick then
      (snake_movement s1).bind (fun s2 => snake_growth (snake_eating s2))
    else
      some s1
  moved.map (fun s3 =>
    let s4 := match inp.foodDraws with
      | some draws => food_spawner s3 draws
      | none => s3
    game_over s4)

/-- Run a sequence of ticks from a state, propagating panics. -/
def runTicks (s : GameState) : List TickInput → Option GameState
  | [] => some s
  | inp :: rest => (tick s inp).bind (fun s2 => runTicks s2 rest)

/-- The systems registered in `main`'s `FixedUpdate` schedule. -/
inductive Sys where
  | movementInput
  | movement
  | eating
  | growth
  | gameOverSys
  | foodSpawnerSys
deriving DecidableEq, Repr

/-- All six `FixedUpdate` systems. -/
def allSystems : List Sys :=
  [.movementInput, .movement, .eating, .growth, .gameOverSys, .foodSpawnerSys]

/-- The ordering constraints `main` declares on the `FixedUpdate`
schedule: `snake_movement_input.before(snake_movement)`,
`snake_eating.after(snake_movement)`, `snake_growth.after(snake_eating)`,
and `game_over.after(snake_movement)`.  `food_spawner` is unordered. -/
def scheduleConstraints : List (Sys × Sys) :=
  [(.movementInput, .movement), (.movement, .eating), (.eating, .growth),
    (.movement, .gameOverSys)]

/-- A linear execution order Bevy may choose for one tick: a permutation
of the six systems satisfying every declared `before`/`after`
constraint. -/
def okSchedule (l : List Sys) : Bool :=
  decide (l.length = allSystems.length) &&
    allSystems.all (fun s => l.count s = 1) &&
    scheduleConstraints.all (fun c => decide (l.indexOf c.1 < l.indexOf c.2))

/-- The between-tick invariant behind the panic-freedom argument: the
segment list holds at least the head and one body segment, and no growth
signal outlives its tick. -/
def SegInv (s : GameState) : Prop :=
  2 ≤ s.segments.length ∧ s.growthEvents = 0

/-- A concrete mid-game state used to exercise the growth phase: the
post-first-move snake with two growth signals pending. -/
def twoSignalState : GameState where
  segments := [⟨3, 4⟩, ⟨3, 3⟩]
  direction := .up
  lastTail := some ⟨3, 3⟩
  foods := []
  growthEvents := 2
  gameOverEvents := 0

/-- A concrete mid-game state used to exercise the reset: a grown,
food-bearing snake with a game-over signal pending. -/
def pendingResetState : GameState where
  segments := [⟨5, 5⟩, ⟨5, 4⟩, ⟨5, 3⟩]
  direction := .right
  lastTail := some ⟨5, 3⟩
  foods := [⟨1, 1⟩]
  growthEvents := 0
  gameOverEvents := 1

/-- A concrete state about to move into the cell its tail is vacating:
head at `(3, 4)` facing `Down`, tail at `(3, 3)`. -/
def tailChaseState : GameState where
  segments := [⟨3, 4⟩, ⟨3, 3⟩]
  direction := .down
  lastTail := some ⟨3, 3⟩
  foods := []
  growthEvents := 0
  gameOverEvents := 0

/-- A concrete state about to run off the left edge: head at `(0, 5)`
facing `Left` (the next head position is `(-1, 5)`). -/
def edgeState : GameState where
  segments := [⟨0, 5⟩, ⟨0, 4⟩]
  direction := .left
  lastTail := some ⟨0, 4⟩
  foods := []
  growthEvents := 0
  gameOverEvents := 0

/-- `outOfBounds` agrees with the specification's bounds predicate: a
position is rejected exactly when it lies outside
`[0, width) × [0, height)`. -/
theorem outOfBounds_iff (p : Position) :
    outOfBounds p = true ↔
      ¬ (0 ≤ p.x ∧ p.x < ARENA_WIDTH ∧ 0 ≤ p.y ∧ p.y < ARENA_HEIGHT) := by
  simp only [outOfBounds, ARENA_WIDTH, ARENA_HEIGHT, Bool.or_eq_true,
    decide_eq_true_eq]
  omega

/-- Claim C1: with a non-empty segment list, one `advance()` moves the
head exactly one grid unit in its direction (`Left: x-1, Right: x+1,
Up: y+1, Down: y-1`), assigns every segment `i ≥ 1` the pre-move position
of segment `i-1` (a parallel assignment from the pre-mutation snapshot),
and records the pre-move position of the last segment as
`LastTailPosition`. -/
theorem C1_advance (s : GameState) (h : Position) (t : List Position)
    (hs : s.segments = h :: t) :
    ∃ s2, snake_movement s = some s2 ∧
      s2.segments.length = s.segments.length ∧
      s2.segments.head? = some (movePos s.direction h) ∧
      (∀ i : Nat, 1 ≤ i → i < s2.segments.length →
        s2.segments[i]? = s.segments[i - 1]?) ∧
      s2.lastTail = some ((h :: t).getLast (List.cons_ne_nil h t)) ∧
      movePos s.direction h =
        (match s.direction with
          | .left => ⟨h.x - 1, h.y⟩
          | .right => ⟨h.x + 1, h.y⟩
          | .up => ⟨h.x, h.y + 1⟩
          | .down => ⟨h.x, h.y - 1⟩) := by
  obtain ⟨segs, dir, lt, fs, ge, goe⟩ := s
  simp only at hs
  subst hs
  refine ⟨_, rfl, ?_, rfl, ?_, rfl, ?_⟩
  · simp [snake_movement, List.length_dropLast]
  · intro i h1 h2
    cases i with
    | zero => omega
    | succ j =>
      simp only [snake_movement, List.length_cons, List.length_dropLast] at h2
      rw [List.getElem?_cons_succ, List.getElem?_dropLast,
        if_pos (by simp; omega)]
      rfl
  · cases dir <;> rfl

/-- Witness for C1 at the startup state: the scenario of one `advance()`
from head `(3, 3)` facing `Up` with tail `(3, 3)`. -/
theorem C1_advance_witness :
    ∃ s2, snake_movement initialState = some s2 ∧
      s2.segments.length = initialState.segments.length ∧
      s2.segments.head? = some (movePos initialState.direction ⟨3, 3⟩) ∧
      (∀ i : Nat, 1 ≤ i → i < s2.segments.length →
        s2.segments[i]? = initialState.segments[i - 1]?) ∧
      s2.lastTail = some ⟨3, 3⟩ ∧
      movePos initialState.direction ⟨3, 3⟩ = ⟨3, 4⟩ :=
  C1_advance initialState ⟨3, 3⟩ [⟨3, 3⟩] rfl

/-- Claim C3: if the new head position equals any position in the
pre-move snapshot of segment positions (the whole segment list, the
pre-move tail included), `advance()` raises a game-over signal this
tick. -/
theorem C3_self_collision (s : GameState) (h : Position) (t : List Position)
    (hs : s.segments = h :: t)
    (hmem : movePos s.direction h ∈ s.segments) :
    ∃ s2, snake_movement s = some s2 ∧
      s.gameOverEvents < s2.gameOverEvents := by
  obtain ⟨segs, dir, lt, fs, ge, goe⟩ := s
  simp only at hs hmem
  subst hs
  refine ⟨_, rfl, ?_⟩
  simp only [snake_movement, decide_eq_true hmem, if_true]
  split <;> omega

/-- Witness for C3: moving the head into the cell the tail is vacating
this very tick is still flagged as a collision. -/
theorem C3_self_collision_witness :
    ∃ s2, snake_movement tailChaseState = some s2 ∧
      tailChaseState.gameOverEvents < s2.gameOverEvents :=
  C3_self_collision tailChaseState ⟨3, 4⟩ [⟨3, 3⟩] rfl (by decide)

/-- Claim C4: if the new head position lies outside
`[0, width) × [0, height)` with `width = height = 10`, `advance()` raises
a game-over signal this tick, and the tick still completes: the body
shift and the `LastTailPosition` recording are still performed. -/
theorem C4_bounds (s : GameState) (h : Position) (t : List Position)
    (hs : s.segments = h :: t)
    (hout : ¬ (0 ≤ (movePos s.direction h).x ∧
      (movePos s.direction h).x < ARENA_WIDTH ∧
      0 ≤ (movePos s.direction h).y ∧
      (movePos s.direction h).y < ARENA_HEIGHT)) :
    ∃ s2, snake_movement s = some s2 ∧
      s.gameOverEvents < s2.gameOverEvents ∧
      s2.segments = movePos s.direction h :: (h :: t).dropLast ∧
      s2.lastTail = some ((h :: t).getLast (List.cons_ne_nil h t)) := by
  obtain ⟨segs, dir, lt, fs, ge, goe⟩ := s
  simp only at hs hout
  subst hs
  refine ⟨_, rfl, ?_, rfl, rfl⟩
  simp only [snake_movement, (outOfBounds_iff _).mpr hout, if_true]
  split <;> omega

/-- Witness for C4: the head moves to `(-1, 5)`; the game-over signal is
raised and the shift and tail recording still occur. -/
theorem C4_bounds_witness :
    ∃ s2, snake_movement edgeState = some s2 ∧
      edgeState.gameOverEvents < s2.gameOverEvents ∧
      s2.segments = movePos edgeState.direction ⟨0, 5⟩ ::
        ([⟨0, 5⟩, ⟨0, 4⟩] : List Position).dropLast ∧
      s2.lastTail = some (((⟨0, 5⟩ : Position) :: [⟨0, 4⟩]).getLast
        (List.cons_ne_nil _ _)) :=
  C4_bounds edgeState ⟨0, 5⟩ [⟨0, 4⟩] rfl (by decide)

/-- Claim C9: for every current direction and every requested direction
`r`, the direction input leaves the head direction unchanged when
`r = opposite(current)` and sets it to exactly `r` otherwise; the
operation is total, so no error is raised in either case. -/
theorem C9_set_direction (s : GameState) (r : Direction) :
    (r = s.direction.opposite →
      (snake_movement_input s (some r)).direction = s.direction) ∧
    (r ≠ s.direction.opposite →
      (snake_movement_input s (some r)).direction = r) := by
  constructor
  · intro h
    simp [snake_movement_input, h]
  · intro h
    simp [snake_movement_input, h]

/-- Witness for C9 at the startup state (facing `Up`): requesting `Down`
is ignored, requesting `Left` is applied. -/
theorem C9_set_direction_witness :
    (snake_movement_input initialState (some .down)).direction =
        initialState.direction ∧
    (snake_movement_input initialState (some .left)).direction = .left :=
  ⟨(C9_set_direction initialState .down).1 (by decide),
    (C9_set_direction initialState .left).2 (by decide)⟩

/-- Claim C8: after a game-over transition completes, the segment list is
exactly a head and one body segment, both at the fixed start position
`(3, 3)`, the direction is the default `Up`, and no food entities
remain. -/
theorem C8_game_over_reset (s : GameState) (h : s.gameOverEvents ≠ 0) :
    (game_over s).segments = [⟨3, 3⟩, ⟨3, 3⟩] ∧
    (game_over s).segments.length = 2 ∧
    (game_over s).direction = .up ∧
    (game_over s).foods = [] := by
  simp [game_over, h, spawn_snake]

/-- Witness for C8: a pending game-over signal in a grown, food-bearing
state resets to the two-segment startup configuration. -/
theorem C8_game_over_reset_witness :
    (game_over pendingResetState).segments = [⟨3, 3⟩, ⟨3, 3⟩] ∧
    (game_over pendingResetState).segments.length = 2 ∧
    (game_over pendingResetState).direction = .up ∧
    (game_over pendingResetState).foods = [] :=
  C8_game_over_reset pendingResetState (by decide)

/-- Claim C2 counterexample: the claim says two growth signals raised in
one tick append two new tail segments (final length 4 from length 2);
`snake_growth` only tests `!growth_reader.is_empty()` and pushes a single
segment, so the state with two pending signals ends with 3 segments. -/
theorem C2_counterexample :
    twoSignalState.growthEvents = 2 ∧
    (snake_growth twoSignalState).map (fun s => s.segments.length) = some 3 ∧
    (3 : Nat) ≠ 4 := by
  exact ⟨rfl, rfl, by decide⟩

/-- Claim C2 as amended: the growth phase drains the growth-signal queue
and, when at least one signal is pending, appends exactly ONE new tail
segment at the recorded `LastTailPosition`, regardless of how many
signals were raised this tick. -/
theorem C2_growth_appends_one (s : GameState) (p : Position)
    (hg : s.growthEvents ≠ 0) (hl : s.lastTail = some p) :
    snake_growth s = some { s with segments := s.segments ++ [p], growthEvents := 0 } := by
  simp [snake_growth, hg, hl]

/-- Witness for the amended C2: two pending signals, one segment appended
at the recorded tail position. -/
theorem C2_growth_appends_one_witness :
    snake_growth twoSignalState =
      some { twoSignalState with
             segments := twoSignalState.segments ++ [⟨3, 3⟩]
             growthEvents := 0 } :=
  C2_growth_appends_one twoSignalState ⟨3, 3⟩ (by decide) rfl

/-- Claim C5 counterexample: the claim says game-over handling runs
strictly after movement, eating and growth; but `main` only declares
`game_over.after(snake_movement)`, so the schedule placing `game_over`
right after `snake_movement` and before `snake_eating`/`snake_growth`
satisfies every declared constraint. -/
theorem C5_counterexample :
    okSchedule [.movementInput, .movement, .gameOverSys, .eating, .growth,
        .foodSpawnerSys] = true ∧
    [Sys.movementInput, .movement, .gameOverSys, .eating, .growth,
        .foodSpawnerSys].indexOf Sys.gameOverSys <
      [Sys.movementInput, .movement, .gameOverSys, .eating, .growth,
        .foodSpawnerSys].indexOf Sys.growth := by
  decide

/-- Claim C5 as amended: the only ordering `main` imposes on the
game-over handler is `game_over.after(snake_movement)`: in every valid
schedule game-over runs after movement, but it is not constrained to run
after eating or growth. -/
theorem C5_game_over_after_movement_only (l : List Sys)
    (h : okSchedule l = true) :
    l.indexOf Sys.movement < l.indexOf Sys.gameOverSys := by
  simp only [okSchedule, scheduleConstraints, allSystems, List.all_cons,
    List.all_nil, Bool.and_eq_true, decide_eq_true_eq, and_true] at h
  exact h.2.2.2.2

/-- Witness for the amended C5 at the fully sequential pipeline
schedule. -/
theorem C5_game_over_after_movement_only_witness :
    [Sys.movementInput, .movement, .eating, .growth, .gameOverSys,
        .foodSpawnerSys].indexOf Sys.movement <
      [Sys.movementInput, .movement, .eating, .growth, .gameOverSys,
        .foodSpawnerSys].indexOf Sys.gameOverSys :=
  C5_game_over_after_movement_only _ (by decide)

/-- The truncated scaling of a draw in `[0, 1)` by a positive arena
dimension lands in `[0, w)`. -/
theorem f32_as_i32_mem_range (r : ℚ) (w : Int) (h0 : 0 ≤ r) (h1 : r < 1)
    (hw : 0 < w) : 0 ≤ f32_as_i32 (r * w) ∧ f32_as_i32 (r * w) < w := by
  have hq0 : (0 : ℚ) ≤ r * w := mul_nonneg h0 (by exact_mod_cast hw.le)
  rw [f32_as_i32, if_pos hq0]
  refine ⟨Int.floor_nonneg.mpr hq0, ?_⟩
  rw [Int.floor_lt]
  calc r * (w : ℚ) < 1 * w := by
        apply mul_lt_mul_of_pos_right h1
        exact_mod_cast hw
    _ = w := one_mul _

/-- A position accepted by the rejection loop differs from every position
in the excluded (head) list. -/
theorem food_spawner_loop_ne_heads (draws : List (ℚ × ℚ))
    (heads : List Position) (p : Position)
    (hres : food_spawner_loop draws heads = some p) :
    ∀ hp ∈ heads, p ≠ hp := by
  induction draws with
  | nil => simp [food_spawner_loop] at hres
  | cons r rest ih =>
    obtain ⟨rx, ry⟩ := r
    rw [food_spawner_loop] at hres
    split at hres
    · rename_i hacc
      obtain rfl : p = _ := (Option.some.injEq _ _).mp hres.symm
      intro hp hmem hcontra
      have := List.all_eq_true.mp hacc hp hmem
      simp only [Bool.not_eq_eq_eq_not, Bool.not_true, Bool.and_eq_false_imp,
        decide_eq_true_eq, decide_eq_false_iff_not] at this
      subst hcontra
      simp at this
    · exact ih hres

/-- A position accepted by the rejection loop from draws in `[0, 1)` lies
inside the arena. -/
theorem food_spawner_loop_in_range (draws : List (ℚ × ℚ))
    (heads : List Position) (p : Position)
    (hd : ∀ r ∈ draws, 0 ≤ r.1 ∧ r.1 < 1 ∧ 0 ≤ r.2 ∧ r.2 < 1)
    (hres : food_spawner_loop draws heads = some p) :
    0 ≤ p.x ∧ p.x < ARENA_WIDTH ∧ 0 ≤ p.y ∧ p.y < ARENA_HEIGHT := by
  induction draws with
  | nil => simp [food_spawner_loop] at hres
  | cons r rest ih =>
    obtain ⟨rx, ry⟩ := r
    have hr := hd (rx, ry) (List.mem_cons_self _ _)
    rw [food_spawner_loop] at hres
    split at hres
    · obtain rfl : p = _ := (Option.some.injEq _ _).mp hres.symm
      obtain ⟨hx0, hx1, hy0, hy1⟩ := hr
      have hx := f32_as_i32_mem_range rx ARENA_WIDTH hx0 hx1 (by decide)
      have hy := f32_as_i32_mem_range ry ARENA_HEIGHT hy0 hy1 (by decide)
      exact ⟨hx.1, hx.2, hy.1, hy.2⟩
    · exact ih (fun q hq => hd q (List.mem_cons_of_mem _ hq)) hres

/-- Claim C6: every position produced by the food spawner lies within
grid bounds (`0 ≤ x < 10`, `0 ≤ y < 10`) and never equals the head's
current position, for every sequence of `[0, 1)` draws on which the
rejection loop terminates. -/
theorem C6_spawn_in_bounds_not_head (draws : List (ℚ × ℚ))
    (heads : List Position) (p : Position)
    (hd : ∀ r ∈ draws, 0 ≤ r.1 ∧ r.1 < 1 ∧ 0 ≤ r.2 ∧ r.2 < 1)
    (hres : food_spawner_loop draws heads = some p) :
    (0 ≤ p.x ∧ p.x < ARENA_WIDTH ∧ 0 ≤ p.y ∧ p.y < ARENA_HEIGHT) ∧
      ∀ hp ∈ heads, p ≠ hp :=
  ⟨food_spawner_loop_in_range draws heads p hd hres,
    food_spawner_loop_ne_heads draws heads p hres⟩

/-- Witness for C6: the draw `(1/2, 1/2)` against a head at `(3, 3)` is
accepted at `(5, 5)`, which is in bounds and is not the head. -/
theorem C6_spawn_in_bounds_not_head_witness :
    (0 ≤ (⟨5, 5⟩ : Position).x ∧ (⟨5, 5⟩ : Position).x < ARENA_WIDTH ∧
      0 ≤ (⟨5, 5⟩ : Position).y ∧ (⟨5, 5⟩ : Position).y < ARENA_HEIGHT) ∧
    (⟨5, 5⟩ : Position) ≠ ⟨3, 3⟩ :=
  ⟨(C6_spawn_in_bounds_not_head [(mkRat 1 2, mkRat 1 2)] [⟨3, 3⟩] ⟨5, 5⟩
      (by decide) (by decide)).1,
    (C6_spawn_in_bounds_not_head [(mkRat 1 2, mkRat 1 2)] [⟨3, 3⟩] ⟨5, 5⟩
      (by decide) (by decide)).2 ⟨3, 3⟩ (by decide)⟩

/-- Claim C7 counterexample: from the startup state, one movement tick
reaches the state with head `(3, 4)` and body segment `(3, 3)`; a food
spawn on the next tick with draw `(3/10, 3/10)` is accepted at `(3, 3)`,
which is an occupied body cell — the spawner only rejects the head's
cell. -/
theorem C7_counterexample :
    runTicks initialState
        [{ key := none, moveTick := true, foodDraws := none },
          { key := none, moveTick := false,
            foodDraws := some [(mkRat 3 10, mkRat 3 10)] }] =
      some { segments := [⟨3, 4⟩, ⟨3, 3⟩], direction := .up,
              lastTail := some ⟨3, 3⟩, foods := [⟨3, 3⟩], growthEvents := 0,
              gameOverEvents := 0 } ∧
    (⟨3, 3⟩ : Position) ∈ [(⟨3, 4⟩ : Position), ⟨3, 3⟩] := by
  exact ⟨by decide, by decide⟩

/-- Claim C7 as amended: the accepted food position differs from the
head's position, but no other segment is excluded — food may spawn on an
occupied body cell. -/
theorem C7_food_avoids_head_only (draws : List (ℚ × ℚ)) (s : GameState)
    (p : Position)
    (hres : food_spawner_loop draws (headPositions s) = some p) :
    ∀ hp ∈ headPositions s, p ≠ hp :=
  food_spawner_loop_ne_heads draws (headPositions s) p hres

/-- Witness for the amended C7: the spawn accepted at `(3, 3)` differs
from the head `(3, 4)` of the post-first-move state. -/
theorem C7_food_avoids_head_only_witness :
    (⟨3, 3⟩ : Position) ≠ ⟨3, 4⟩ :=
  C7_food_avoids_head_only [(mkRat 3 10, mkRat 3 10)] tailChaseState ⟨3, 3⟩
    (by decide) ⟨3, 4⟩ (by decide)

/-- The input phase never touches the segment list, the growth queue or
the recorded tail position. -/
theorem snake_movement_input_shape (s : GameState) (k : Option Direction) :
    (snake_movement_input s k).segments = s.segments ∧
    (snake_movement_input s k).growthEvents = s.growthEvents ∧
    (snake_movement_input s k).lastTail = s.lastTail := by
  simp only [snake_movement_input]
  split <;> exact ⟨rfl, rfl, rfl⟩

/-- On a non-empty segment list the movement phase succeeds, preserves
the segment count and the growth queue, and leaves `LastTailPosition`
set. -/
theorem snake_movement_shape (s : GameState) (h : Position)
    (t : List Position) (hs : s.segments = h :: t) :
    ∃ s2, snake_movement s = some s2 ∧
      s2.segments.length = s.segments.length ∧
      s2.growthEvents = s.growthEvents ∧
      s2.lastTail.isSome = true := by
  obtain ⟨segs, dir, lt, fs, ge, goe⟩ := s
  simp only at hs
  subst hs
  exact ⟨_, rfl, by simp [snake_movement, List.length_dropLast], rfl, rfl⟩

/-- The eating phase never touches the segment list or the recorded tail
position. -/
theorem snake_eating_shape (s : GameState) :
    (snake_eating s).segments = s.segments ∧
    (snake_eating s).lastTail = s.lastTail := by
  rw [snake_eating]
  split <;> exact ⟨rfl, rfl⟩

/-- With `LastTailPosition` set, the growth phase succeeds, never shrinks
the segment list, and drains the growth queue. -/
theorem snake_growth_shape (s : GameState) (hl : s.lastTail.isSome = true) :
    ∃ s2, snake_growth s = some s2 ∧
      s.segments.length ≤ s2.segments.length ∧
      s2.growthEvents = 0 := by
  obtain ⟨p, hp⟩ := Option.isSome_iff_exists.mp hl
  rw [snake_growth]
  split
  · rw [hp]
    exact ⟨_, rfl, by simp, rfl⟩
  · exact ⟨_, rfl, Nat.le_refl _, rfl⟩

/-- The game-over phase preserves the between-tick invariant: it either
leaves the segments alone or resets them to the two-segment start. -/
theorem game_over_seginv (s : GameState) (h : SegInv s) :
    SegInv (game_over s) := by
  obtain ⟨h2, hg⟩ := h
  rw [game_over]
  split
  · exact ⟨by simp [spawn_snake], hg⟩
  · exact ⟨h2, hg⟩

/-- The food spawner only adds food entities, so it preserves the
between-tick invariant. -/
theorem food_spawner_seginv (s : GameState) (d : List (ℚ × ℚ))
    (h : SegInv s) : SegInv (food_spawner s d) := by
  rw [food_spawner]
  split <;> exact ⟨h.1, h.2⟩

/-- One full tick from an invariant state succeeds (no `unwrap` can
panic) and re-establishes the invariant. -/
theorem tick_preserves (s : GameState) (inp : TickInput) (h : SegInv s) :
    ∃ s2, tick s inp = some s2 ∧ SegInv s2 := by
  obtain ⟨hlen, hge⟩ := h
  obtain ⟨hseg1, hge1, hlt1⟩ := snake_movement_input_shape s inp.key
  rw [tick]
  by_cases hmt : inp.moveTick
  · rw [if_pos hmt]
    have hne : (snake_movement_input s inp.key).segments ≠ [] := by
      rw [hseg1]
      intro hnil
      rw [hnil] at hlen
      simp at hlen
    obtain ⟨hd, tl, hht⟩ := List.exists_cons_of_ne_nil hne
    obtain ⟨s2a, hm, hmlen, hmge, hmlt⟩ :=
      snake_movement_shape (snake_movement_input s inp.key) hd tl hht
    rw [hm]
    obtain ⟨heseg, helt⟩ := snake_eating_shape s2a
    have hlt2 : (snake_eating s2a).lastTail.isSome = true := by
      rw [helt]
      exact hmlt
    obtain ⟨s3, hgr, hglen, hgge⟩ := snake_growth_shape (snake_eating s2a) hlt2
    simp only [Option.some_bind]
    rw [hgr]
    refine ⟨_, rfl, ?_⟩
    have hlen3 : 2 ≤ s3.segments.length := by
      rw [heseg] at hglen
      calc 2 ≤ s.segments.length := hlen
        _ = s2a.segments.length := by rw [hmlen, hseg1]
        _ ≤ s3.segments.length := hglen
    cases hf : inp.foodDraws with
    | none => exact game_over_seginv s3 ⟨hlen3, hgge⟩
    | some d => exact game_over_seginv _ (food_spawner_seginv s3 d ⟨hlen3, hgge⟩)
  · rw [if_neg hmt]
    refine ⟨_, rfl, ?_⟩
    have hs1 : SegInv (snake_movement_input s inp.key) := by
      constructor
      · rw [hseg1]
        exact hlen
      · rw [hge1]
        exact hge
    cases hf : inp.foodDraws with
    | none => exact game_over_seginv _ hs1
    | some d => exact game_over_seginv _ (food_spawner_seginv _ d hs1)

/-- Claim C10: from startup onward every tick preserves the invariant
that the segment list has at least two entries; consequently the pre-move
snapshot is never empty and `LastTailPosition` is `Some` whenever the
growth phase consumes it, so no run of ticks ever hits a failing
`unwrap` (modelled as `none`). -/
theorem C10_ticks_never_panic (inputs : List TickInput) :
    ∃ s2, runTicks initialState inputs = some s2 ∧
      2 ≤ s2.segments.length := by
  have hrun : ∀ (l : List TickInput) (s : GameState), SegInv s →
      ∃ s2, runTicks s l = some s2 ∧ SegInv s2 := by
    intro l
    induction l with
    | nil => exact fun s hs => ⟨s, rfl, hs⟩
    | cons inp rest ih =>
      intro s hs
      obtain ⟨s2, ht, hs2⟩ := tick_preserves s inp hs
      obtain ⟨s3, hr, hs3⟩ := ih s2 hs2
      refine ⟨s3, ?_, hs3⟩
      rw [runTicks, ht, Option.some_bind]
      exact hr
  obtain ⟨s2, h1, h2⟩ := hrun inputs initialState ⟨by decide, rfl⟩
  exact ⟨s2, h1, h2.1⟩

end Snake
